import Mathlib

/-!
Shallow embedding of `src/ShortPositionUpdater.py` (class `ShortPositionAnalyzer`).

The program is a linear pipeline: download an Excel file of short-selling
positions, filter/group the tables, fetch news, embed and store them in an
in-memory vector store, search, and call an inference endpoint.

Modelling conventions:
- A dataframe row of the position tables becomes a `Row` (columns `ISIN`,
  `Position Holder`, `Net Short Position (%)`, `Position Date`, `Share Issuer`).
- Dates are modelled as `Nat` codes; the code only ever compares them for
  equality (`current['Position Date'] == self.pubblication_date`) and parses
  them from a `"%d/%m/%Y"` string.
- Percentages are modelled as `Rat`; the code never computes with them, it
  only collects them into lists.
- Python exceptions become an explicit `PyError` value threaded through
  `Except`; an uncaught exception is an `Except.error` result.
- HTTP traffic is an explicit input: the response (status code and parsed
  content) is a parameter of the function that performs the request.
- The embedding model (`SentenceTransformer.encode`) and the similarity
  scoring used by the vector store are opaque: they are taken as function
  parameters, since no claim depends on the numeric values they produce.
-/

/-- Python exceptions relevant to this program. `requestException` stands for
`requests.exceptions.RequestException` (connection errors and the `HTTPError`
raised by `raise_for_status`); the others are the builtin Python errors. -/
inductive PyError where
  | requestException
  | unboundLocalError (name : String)
  | attributeError (name : String)
  | keyError (key : String)
  | valueError (msg : String)
  deriving DecidableEq, Repr

/-- One row of the `current` / `historical` position tables.
Field names map to the dataframe columns:
`isin` = `ISIN`, `holder` = `Position Holder`,
`netShortPct` = `Net Short Position (%)`, `posDate` = `Position Date`,
`shareIssuer` = `Share Issuer`. -/
structure Row where
  isin : String
  holder : String
  netShortPct : Rat
  posDate : Nat
  shareIssuer : String
  deriving DecidableEq, Repr

/-- One group of `current.groupby('ISIN').agg({'Position Holder': list,
'Net Short Position (%)': list, 'Share Issuer': 'first'})`. -/
structure AssetGroup where
  isin : String
  holders : List String
  pcts : List Rat
  issuer : String
  deriving DecidableEq, Repr

/-- Insert a string into a list that is kept sorted ascending. -/
def insertStr (s : String) : List String → List String
  | [] => [s]
  | t :: ts => if s ≤ t then s :: t :: ts else t :: insertStr s ts

/-- Sort a list of strings ascending (pandas `groupby` sorts group keys). -/
def sortStrs (l : List String) : List String := l.foldr insertStr []

/-- The group that `groupby('ISIN')` produces for key `i`: holder names and
percentages collected in input row order, issuer from the first row of the
group (`'first'` aggregation). -/
def mkAssetGroup (current : List Row) (i : String) : AssetGroup :=
  let rows := current.filter (fun r => r.isin == i)
  { isin := i
    holders := rows.map Row.holder
    pcts := rows.map Row.netShortPct
    issuer := ((rows.head?).map Row.shareIssuer).getD "" }

/-- `current.groupby('ISIN').agg(...)`: one `AssetGroup` per distinct ISIN,
group keys sorted ascending as pandas does by default. -/
def groupByISIN (current : List Row) : List AssetGroup :=
  (sortStrs (current.map Row.isin).dedup).map (mkAssetGroup current)

/-- The triple returned by `analyze_positions`. -/
structure AnalysisResult where
  new_positions : List Row
  closed_positions : List Row
  short_positions_by_asset : List AssetGroup
  deriving DecidableEq, Repr

/-- The pure computation of `ShortPositionAnalyzer.analyze_positions`, with the
publication date (read from `self.pubblication_date` in the source) made an
explicit argument. -/
def analyze_positions (current historical : List Row) (pubblication_date : Nat) :
    AnalysisResult :=
  { new_positions := current.filter (fun r => r.posDate == pubblication_date)
    closed_positions := historical.filter (fun r => r.posDate == pubblication_date)
    short_positions_by_asset := groupByISIN current }

/-! ### The analyzer's instance state and `analyze_positions` as a method

`self.pubblication_date` is assigned only on the successful path of
`download_file`; before that the attribute does not exist, so reading it
raises `AttributeError`. The other instance attributes are set by
`__init__` and never touched again. -/

/-- A stored point of the qdrant collection: id, vector, and the payload
`{"title": title, "url": url}` attached by `embed_and_store_news`. -/
structure QPoint where
  id : Nat
  vector : List Int
  payload_title : String
  payload_url : String
  deriving DecidableEq, Repr

/-- The in-memory qdrant store: the names of existing collections and the
points of the single collection this program uses. -/
structure QdrantState where
  collections : List String
  points : List QPoint
  deriving DecidableEq, Repr

/-- `self.COLLECTION_NAME`. -/
def COLLECTION_NAME : String := "Press news"

/-- The `QdrantClient(":memory:")` made by `__init__`: no collections, no
points. -/
def emptyQdrant : QdrantState := { collections := [], points := [] }

/-- The mutable instance state of a `ShortPositionAnalyzer` object. Config and
secret strings are set by `__init__`; `pubblication_date` is `none` until
`download_file` assigns it. -/
structure AnalyzerState where
  url : String
  destfile : String
  news_endpoint : String
  news_api_key : String
  hugging_face_token : String
  qdrant : QdrantState
  nextId : Nat
  pubblication_date : Option Nat
  deriving DecidableEq, Repr

/-- `analyze_positions` as the method is written: it reads
`self.pubblication_date` (an `AttributeError` if `download_file` never set it)
and mutates nothing. Returns (result, state after the call). -/
def analyze_positions_method (s : AnalyzerState) (current historical : List Row) :
    Except PyError AnalysisResult × AnalyzerState :=
  match s.pubblication_date with
  | none => (.error (.attributeError "pubblication_date"), s)
  | some d => (.ok (analyze_positions current historical d), s)

/-! ### `download_file` -/

/-- Result of one `pd.read_excel` sheet parse: the rows, or the uncaught
pandas/openpyxl error (e.g. `ValueError` for a missing sheet name). -/
abbrev SheetResult := Except PyError (List Row)

/-- The parses of the downloaded workbook's three sheets. `dateCell` is the
string at `.iloc[1].values[0]` of the `' Pubb. Data - Pubb. Date '` sheet
(or the error raised while reading that sheet). -/
structure ExcelContent where
  currentSheet : SheetResult
  historicalSheet : SheetResult
  dateCell : Except PyError String
  deriving Repr

/-- Digits of a numeral string to a `Nat` (the string is checked to be all
digits before this is applied). -/
def digitsToNat (s : String) : Nat :=
  s.foldl (fun n c => n * 10 + (c.toNat - 48)) 0

/-- `datetime.strptime(date_str, "%d/%m/%Y")`, modelled on `Nat` date codes:
three `/`-separated digit groups, day in 1..31, month in 1..12, encoded as
`y * 10000 + m * 100 + d`; anything else raises `ValueError`. -/
def strptime_dmY (s : String) : Except PyError Nat :=
  match s.splitOn "/" with
  | [d, m, y] =>
    if d ≠ "" && d.all Char.isDigit && m ≠ "" && m.all Char.isDigit
        && y ≠ "" && y.all Char.isDigit then
      let dn := digitsToNat d
      let mn := digitsToNat m
      if 1 ≤ dn && dn ≤ 31 && 1 ≤ mn && mn ≤ 12 then
        .ok (digitsToNat y * 10000 + mn * 100 + dn)
      else .error (.valueError s)
    else .error (.valueError s)
  | _ => .error (.valueError s)

/-- What the spreadsheet endpoint did for this run's `requests.get`:
a connection failure, or a response with a status code and (when the body is
later parsed) the workbook content. -/
inductive HttpFetch where
  | connectionError
  | status (code : Nat) (content : ExcelContent)
  deriving Repr

/-- Whether the `try` block's `requests.get` / `response.raise_for_status()`
pair raises a `requests.exceptions.RequestException`: on a connection error,
or on a 4xx/5xx status (`raise_for_status` raises exactly for those). -/
def requestRaises : HttpFetch → Bool
  | .connectionError => true
  | .status code _ => 400 ≤ code && code < 600

/-- Everything observable about one run of `download_file`. -/
structure DownloadOutcome where
  /-- the handler printed `"An error occurred: ..."` -/
  logged : Bool
  /-- the timestamped `.xlsx` file was created in the destination directory -/
  fileWritten : Bool
  /-- value of `self.pubblication_date` after the call (`none` = still unset) -/
  pubDateSet : Option Nat
  /-- control reached the `return current, historical` statement -/
  reachedReturn : Bool
  /-- what the call produces: the two tables, or the exception it raises -/
  result : Except PyError (List Row × List Row)
  deriving Repr

/-- `ShortPositionAnalyzer.download_file`. The `try` block runs the GET and
`raise_for_status`, parses the two position sheets and the date sheet, parses
the date, writes the file, prints a success message. Only
`requests.exceptions.RequestException` is caught; the handler prints and falls
through to `return current, historical`, which raises `UnboundLocalError`
because `current` was never assigned. Sheet/date parse errors propagate
uncaught, before the file write is reached. -/
def download_file (fetch : HttpFetch) : DownloadOutcome :=
  match fetch with
  | .connectionError =>
    { logged := true, fileWritten := false, pubDateSet := none,
      reachedReturn := true, result := .error (.unboundLocalError "current") }
  | .status code content =>
    if 400 ≤ code && code < 600 then
      { logged := true, fileWritten := false, pubDateSet := none,
        reachedReturn := true, result := .error (.unboundLocalError "current") }
    else
      match content.currentSheet with
      | .error e =>
        { logged := false, fileWritten := false, pubDateSet := none,
          reachedReturn := false, result := .error e }
      | .ok current =>
        match content.historicalSheet with
        | .error e =>
          { logged := false, fileWritten := false, pubDateSet := none,
            reachedReturn := false, result := .error e }
        | .ok historical =>
          match content.dateCell with
          | .error e =>
            { logged := false, fileWritten := false, pubDateSet := none,
              reachedReturn := false, result := .error e }
          | .ok dateStr =>
            match strptime_dmY dateStr with
            | .error e =>
              { logged := false, fileWritten := false, pubDateSet := none,
                reachedReturn := false, result := .error e }
            | .ok d =>
              { logged := false, fileWritten := true, pubDateSet := some d,
                reachedReturn := true, result := .ok (current, historical) }

/-! ### `retrieve_news` -/

/-- One entry of the JSON `feed` array. A field is `none` when the object has
no such key, so that `item['title']` / `item['url']` raises `KeyError`. -/
structure FeedEntry where
  title : Option String
  url : Option String
  deriving DecidableEq, Repr

/-- The news endpoint's response: status code and the `feed` array of the
body (`response.json().get('feed', [])` defaults a missing key to `[]`). -/
structure NewsResp where
  status : Nat
  feed : List FeedEntry
  deriving DecidableEq, Repr

/-- The list comprehension `[(item['title'], item['url']) for item in feed]`:
pairs in feed order; the first entry missing a field raises `KeyError` there
(title is subscripted before url). -/
def pairsOfFeed : List FeedEntry → Except PyError (List (String × String))
  | [] => .ok []
  | it :: rest =>
    match it.title with
    | none => .error (.keyError "title")
    | some t =>
      match it.url with
      | none => .error (.keyError "url")
      | some u => (pairsOfFeed rest).map (fun l => (t, u) :: l)

/-- `ShortPositionAnalyzer.retrieve_news`, given the endpoint's response:
`articles` starts `[]`, is replaced by the comprehension only on status 200,
and is returned. -/
def retrieve_news (resp : NewsResp) : Except PyError (List (String × String)) :=
  if resp.status = 200 then pairsOfFeed resp.feed else .ok []

/-! ### `embed_and_store_news` and the qdrant search -/

/-- The upsert loop of `embed_and_store_news`: one point per `(title, url)`
pair, vector from encoding the title, a fresh id per point (`uuid.uuid4()`
modelled as a counter). -/
def upsertAll (encode : String → List Int) (st : QdrantState) (n : Nat) :
    List (String × String) → QdrantState × Nat
  | [] => (st, n)
  | (t, u) :: rest =>
    upsertAll encode
      { st with points := st.points ++ [{ id := n, vector := encode t,
                                          payload_title := t, payload_url := u }] }
      (n + 1) rest

/-- `ShortPositionAnalyzer.embed_and_store_news`: create the collection when
it does not exist yet (this runs before the loop, whether or not `articles`
is empty), then upsert one point per article. -/
def embed_and_store_news (encode : String → List Int) (st : QdrantState)
    (n : Nat) (articles : List (String × String)) : QdrantState × Nat :=
  let st1 := if COLLECTION_NAME ∈ st.collections then st
             else { st with collections := st.collections ++ [COLLECTION_NAME] }
  upsertAll encode st1 n articles

/-- Insert a point into a list kept sorted by descending score. -/
def insertByScore (score : QPoint → Int) (p : QPoint) : List QPoint → List QPoint
  | [] => [p]
  | q :: qs => if score q ≤ score p then p :: q :: qs else q :: insertByScore score p qs

/-- Sort points by descending score. -/
def sortByScoreDesc (score : QPoint → Int) (l : List QPoint) : List QPoint :=
  l.foldr (insertByScore score) []

/-- `self.qdrant.search(...)`: error when the collection does not exist,
otherwise the stored points sorted by similarity to the query vector
(the similarity function `sim` is an opaque parameter standing for cosine
similarity of the embeddings), truncated to `limit`, payloads attached. -/
def qdrant_search (sim : List Int → List Int → Int) (st : QdrantState)
    (queryVec : List Int) (limit : Nat) : Except PyError (List QPoint) :=
  if COLLECTION_NAME ∈ st.collections then
    .ok ((sortByScoreDesc (fun p => sim queryVec p.vector) st.points).take limit)
  else .error (.valueError "collection not found")

/-! ### `retrieve_news_with_rag` and the attribute table -/

/-- Every attribute name the program ever assigns on the instance: the nine
`self.<name> = ...` statements of `__init__` plus `self.pubblication_date`
assigned in `download_file`. No other `self.<name> =` occurs in the source. -/
def assignedAttrNames : List String :=
  ["url", "destfile", "news_endpoint", "news_api_key", "hugging_face_token",
   "qdrant", "COLLECTION_NAME", "DISTANCE", "encoder", "pubblication_date"]

/-- `ShortPositionAnalyzer.retrieve_news_with_rag`, given the set of instance
attributes currently assigned, the opaque encoder and similarity, the qdrant
state, the id supply, and the news endpoint's response. Returns the call's
result (`.ok` only if the final POST line is reached with the endpoint
attribute present) and whether the POST was issued. -/
def retrieve_news_with_rag (attrs : List String) (encode : String → List Int)
    (sim : List Int → List Int → Int) (st : QdrantState) (n : Nat)
    (resp : NewsResp) : Except PyError Unit × Bool :=
  match retrieve_news resp with
  | .error e => (.error e, false)
  | .ok articles =>
    let st1 := (embed_and_store_news encode st n articles).1
    match qdrant_search sim st1 (encode "Short selling") 5 with
    | .error e => (.error e, false)
    | .ok _ =>
      if "llm_inference_endpoint" ∈ attrs then (.ok (), true)
      else (.error (.attributeError "llm_inference_endpoint"), false)

/-! ## Helper lemmas -/

theorem mem_insertStr (a s : String) (l : List String) :
    a ∈ insertStr s l ↔ a = s ∨ a ∈ l := by
  induction l with
  | nil => simp [insertStr]
  | cons t ts ih =>
    simp only [insertStr]
    split
    · simp [List.mem_cons]
    · simp only [List.mem_cons, ih]
      tauto

theorem mem_sortStrs (a : String) (l : List String) : a ∈ sortStrs l ↔ a ∈ l := by
  induction l with
  | nil => simp [sortStrs]
  | cons t ts ih =>
    show a ∈ insertStr t (sortStrs ts) ↔ _
    rw [mem_insertStr, ih]
    simp [List.mem_cons]

theorem count_insertStr (a s : String) (l : List String) :
    (insertStr s l).count a = (s :: l).count a := by
  induction l with
  | nil => rfl
  | cons t ts ih =>
    simp only [insertStr]
    split
    · rfl
    · rw [List.count_cons, ih, List.count_cons, List.count_cons, List.count_cons]
      omega

theorem count_sortStrs (a : String) (l : List String) :
    (sortStrs l).count a = l.count a := by
  induction l with
  | nil => rfl
  | cons t ts ih =>
    show (insertStr t (sortStrs ts)).count a = _
    rw [count_insertStr, List.count_cons, List.count_cons, ih]

theorem find?_eq_head?_filter {α : Type} (p : α → Bool) (l : List α) :
    l.find? p = (l.filter p).head? := by
  induction l with
  | nil => rfl
  | cons x xs ih =>
    cases h : p x with
    | true => rw [List.find?_cons_of_pos _ h, List.filter_cons_of_pos h, List.head?_cons]
    | false =>
      rw [List.find?_cons_of_neg _ (by simp [h]), List.filter_cons_of_neg (by simp [h]), ih]

theorem count_filter_eq (p : Row → Bool) (l : List Row) (row : Row) :
    (l.filter p).count row = if p row then l.count row else 0 := by
  by_cases h : p row
  · simp [h, List.count_filter]
  · simp only [h, if_false]
    refine List.count_eq_zero.2 (fun hmem => ?_)
    exact h ((List.mem_filter.1 hmem).2)

theorem mem_insertByScore (score : QPoint → Int) (p q : QPoint) (l : List QPoint) :
    q ∈ insertByScore score p l ↔ q = p ∨ q ∈ l := by
  induction l with
  | nil => simp [insertByScore]
  | cons x xs ih =>
    simp only [insertByScore]
    split
    · simp [List.mem_cons]
    · simp only [List.mem_cons, ih]
      tauto

theorem mem_sortByScoreDesc (score : QPoint → Int) (q : QPoint) (l : List QPoint) :
    q ∈ sortByScoreDesc score l ↔ q ∈ l := by
  induction l with
  | nil => simp [sortByScoreDesc]
  | cons x xs ih =>
    show q ∈ insertByScore score x (sortByScoreDesc score xs) ↔ _
    rw [mem_insertByScore, ih]
    simp [List.mem_cons]

theorem upsertAll_collections (encode : String → List Int)
    (arts : List (String × String)) :
    ∀ (st : QdrantState) (n : Nat),
      (upsertAll encode st n arts).1.collections = st.collections := by
  induction arts with
  | nil => intro st n; rfl
  | cons a rest ih =>
    intro st n
    obtain ⟨t, u⟩ := a
    exact ih _ _

theorem upsertAll_points_mem (encode : String → List Int)
    (arts : List (String × String)) :
    ∀ (st : QdrantState) (n : Nat) (p : QPoint),
      p ∈ (upsertAll encode st n arts).1.points →
      p ∈ st.points ∨ ∃ a ∈ arts, p.payload_title = a.1 ∧ p.payload_url = a.2 := by
  induction arts with
  | nil => intro st n p hp; exact Or.inl hp
  | cons a rest ih =>
    intro st n p hp
    obtain ⟨t, u⟩ := a
    rcases ih _ _ _ hp with hmem | ⟨b, hb, hT, hU⟩
    · rcases List.mem_append.1 hmem with hold | hnew
      · exact Or.inl hold
      · refine Or.inr ⟨(t, u), List.mem_cons_self _ _, ?_, ?_⟩
        · rw [List.mem_singleton] at hnew
          rw [hnew]
        · rw [List.mem_singleton] at hnew
          rw [hnew]
    · exact Or.inr ⟨b, List.mem_cons_of_mem _ hb, hT, hU⟩

theorem embed_collection_exists (encode : String → List Int) (st : QdrantState)
    (n : Nat) (articles : List (String × String)) :
    COLLECTION_NAME ∈ (embed_and_store_news encode st n articles).1.collections := by
  unfold embed_and_store_news
  rw [upsertAll_collections]
  split
  · assumption
  · exact List.mem_append.2 (Or.inr (List.mem_singleton.2 rfl))

theorem embed_points_from_articles (encode : String → List Int) (n : Nat)
    (articles : List (String × String)) :
    ∀ p ∈ (embed_and_store_news encode emptyQdrant n articles).1.points,
      ∃ a ∈ articles, p.payload_title = a.1 ∧ p.payload_url = a.2 := by
  intro p hp
  unfold embed_and_store_news at hp
  rcases upsertAll_points_mem encode articles _ n p hp with hbase | hfound
  · rcases List.not_mem_nil p (by revert hbase; split <;> exact fun h => h) with ⟨⟩
  · exact hfound

theorem pairsOfFeed_all_some (feed : List FeedEntry)
    (h : ∀ it ∈ feed, it.title.isSome = true ∧ it.url.isSome = true) :
    pairsOfFeed feed = .ok (feed.map (fun it => (it.title.getD "", it.url.getD ""))) := by
  induction feed with
  | nil => rfl
  | cons it rest ih =>
    obtain ⟨ht, hu⟩ := h it (List.mem_cons_self _ _)
    cases hT : it.title with
    | none => rw [hT] at ht; cases ht
    | some t =>
      cases hU : it.url with
      | none => rw [hU] at hu; cases hu
      | some u =>
        have hr := ih (fun x hx => h x (List.mem_cons_of_mem _ hx))
        simp [pairsOfFeed, hT, hU, hr, Except.map]

theorem pairsOfFeed_missing (feed : List FeedEntry)
    (h : ∃ it ∈ feed, it.title = none ∨ it.url = none) :
    ∃ k, pairsOfFeed feed = .error (.keyError k) := by
  induction feed with
  | nil => obtain ⟨it, hit, _⟩ := h; cases hit
  | cons it rest ih =>
    cases hT : it.title with
    | none => exact ⟨"title", by simp [pairsOfFeed, hT]⟩
    | some t =>
      cases hU : it.url with
      | none => exact ⟨"url", by simp [pairsOfFeed, hT, hU]⟩
      | some u =>
        obtain ⟨w, hw, hwmiss⟩ := h
        rcases List.mem_cons.1 hw with rfl | hwrest
        · rcases hwmiss with hmt | hmu
          · rw [hT] at hmt; cases hmt
          · rw [hU] at hmu; cases hmu
        · obtain ⟨k, hk⟩ := ih ⟨w, hwrest, hwmiss⟩
          exact ⟨k, by simp [pairsOfFeed, hT, hU, hk, Except.map]⟩

/-! ## Claims -/

/-- C1: for every publication date `D` and pair of tables, `analyze_positions`
returns `new_positions` consisting of exactly the rows of the current table
whose Position Date equals `D` (order and multiplicity preserved), and
`closed_positions` consisting of exactly the rows of the historical table
whose Position Date equals `D`, the date comparison being exact equality. -/
theorem analyze_positions_filters_exact (current historical : List Row) (D : Nat) :
    ((analyze_positions current historical D).new_positions.Sublist current ∧
      ∀ row, (row ∈ (analyze_positions current historical D).new_positions ↔
        row ∈ current ∧ row.posDate = D) ∧
        (analyze_positions current historical D).new_positions.count row =
          (if row.posDate = D then current.count row else 0)) ∧
    ((analyze_positions current historical D).closed_positions.Sublist historical ∧
      ∀ row, (row ∈ (analyze_positions current historical D).closed_positions ↔
        row ∈ historical ∧ row.posDate = D) ∧
        (analyze_positions current historical D).closed_positions.count row =
          (if row.posDate = D then historical.count row else 0)) := by
  have hmem : ∀ (l : List Row) (row : Row),
      row ∈ l.filter (fun r => r.posDate == D) ↔ row ∈ l ∧ row.posDate = D := by
    intro l row
    rw [List.mem_filter]
    simp [beq_iff_eq]
  have hcount : ∀ (l : List Row) (row : Row),
      (l.filter (fun r => r.posDate == D)).count row =
        (if row.posDate = D then l.count row else 0) := by
    intro l row
    rw [count_filter_eq]
    simp [beq_iff_eq]
  exact ⟨⟨List.filter_sublist _, fun row => ⟨hmem current row, hcount current row⟩⟩,
    ⟨List.filter_sublist _, fun row => ⟨hmem historical row, hcount historical row⟩⟩⟩

/-- C2: for every current table and ISIN `i` present in it, the per-issuer
aggregate of `analyze_positions` has exactly one group keyed by `i`; its
holder list is the holders of the rows with that ISIN in input row order
(so its length is the number of such rows), its percentage list is those
rows' percentages in input row order with no deduplication, and its issuer
is the Share Issuer of the first such row. -/
theorem aggregate_group_spec (current historical : List Row) (D : Nat)
    (i : String) (hi : i ∈ current.map Row.isin) :
    ∃ g ∈ (analyze_positions current historical D).short_positions_by_asset,
      g.isin = i ∧
      g.holders = (current.filter (fun r => r.isin == i)).map Row.holder ∧
      g.holders.length = current.countP (fun r => r.isin == i) ∧
      g.pcts = (current.filter (fun r => r.isin == i)).map Row.netShortPct ∧
      (∃ r0, current.find? (fun r => r.isin == i) = some r0 ∧
        g.issuer = r0.shareIssuer) ∧
      (analyze_positions current historical D).short_positions_by_asset.countP
        (fun g => g.isin == i) = 1 := by
  have hkey : i ∈ sortStrs (current.map Row.isin).dedup :=
    (mem_sortStrs _ _).2 (List.mem_dedup.2 hi)
  obtain ⟨r, hr, hri⟩ := List.mem_map.1 hi
  have hrfilter : r ∈ current.filter (fun x => x.isin == i) :=
    List.mem_filter.2 ⟨hr, by simp [hri]⟩
  obtain ⟨r0, rest, hfe⟩ :=
    List.exists_cons_of_ne_nil (List.ne_nil_of_mem hrfilter)
  refine ⟨mkAssetGroup current i, List.mem_map_of_mem _ hkey, rfl, rfl, ?_, rfl, ?_, ?_⟩
  · show ((current.filter (fun x => x.isin == i)).map Row.holder).length = _
    rw [List.length_map, List.countP_eq_length_filter]
  · refine ⟨r0, ?_, ?_⟩
    · rw [find?_eq_head?_filter, hfe, List.head?_cons]
    · show (((current.filter (fun x => x.isin == i)).head?).map Row.shareIssuer).getD ""
        = r0.shareIssuer
      rw [hfe]
      rfl
  · show ((sortStrs (current.map Row.isin).dedup).map (mkAssetGroup current)).countP
      (fun g => g.isin == i) = 1
    rw [List.countP_map]
    have hfun : ((fun g => g.isin == i) ∘ mkAssetGroup current)
        = (fun k => k == i) := rfl
    rw [hfun, ← List.count_eq_countP, count_sortStrs]
    exact List.count_eq_one_of_mem (List.nodup_dedup _) (List.mem_dedup.2 hi)

/-- The concrete two-row current table used by the C2 witness. -/
def c2table : List Row :=
  [{ isin := "IT1", holder := "A", netShortPct := 1/2, posDate := 9, shareIssuer := "Acme" },
   { isin := "IT1", holder := "A", netShortPct := 2, posDate := 10, shareIssuer := "Other" }]

/-- C2 witness: the aggregate-group property at a concrete two-row table with
a repeated holder and two distinct issuer strings. -/
theorem aggregate_group_spec_witness :
    ∃ g ∈ (analyze_positions c2table [] 10).short_positions_by_asset,
      g.isin = "IT1" ∧
      g.holders = (c2table.filter (fun r => r.isin == "IT1")).map Row.holder ∧
      g.holders.length = c2table.countP (fun r => r.isin == "IT1") ∧
      g.pcts = (c2table.filter (fun r => r.isin == "IT1")).map Row.netShortPct ∧
      (∃ r0, c2table.find? (fun r => r.isin == "IT1") = some r0 ∧
        g.issuer = r0.shareIssuer) ∧
      (analyze_positions c2table [] 10).short_positions_by_asset.countP
        (fun g => g.isin == "IT1") = 1 :=
  aggregate_group_spec c2table [] 10 "IT1" (by decide)

/-- C7: `analyze_positions` is a pure function of the current table, the
historical table, and the publication date: with the date attribute set to
`d`, any two analyzer states produce the same `.ok` result computed by the
pure `analyze_positions`, and the call leaves the instance state unchanged. -/
theorem analyze_positions_method_pure (s1 s2 : AnalyzerState)
    (current historical : List Row) (d : Nat)
    (h1 : s1.pubblication_date = some d) (h2 : s2.pubblication_date = some d) :
    analyze_positions_method s1 current historical =
      (.ok (analyze_positions current historical d), s1) ∧
    analyze_positions_method s2 current historical =
      (.ok (analyze_positions current historical d), s2) := by
  unfold analyze_positions_method
  rw [h1, h2]
  exact ⟨rfl, rfl⟩

/-- Concrete analyzer state for the C7 witness. -/
def stateA : AnalyzerState :=
  { url := "https://example.test/pnc.xlsx", destfile := "/tmp/a",
    news_endpoint := "https://news.test/q={}", news_api_key := "k1",
    hugging_face_token := "t1", qdrant := emptyQdrant, nextId := 0,
    pubblication_date := some 20240110 }

/-- A second analyzer state for the C7 witness, differing from `stateA` in
every field except the publication date. -/
def stateB : AnalyzerState :=
  { url := "https://other.test/pnc.xlsx", destfile := "/tmp/b",
    news_endpoint := "https://other-news.test/q={}", news_api_key := "k2",
    hugging_face_token := "t2",
    qdrant := { collections := [COLLECTION_NAME],
                points := [{ id := 3, vector := [1, 2],
                             payload_title := "t", payload_url := "u" }] },
    nextId := 7, pubblication_date := some 20240110 }

/-- C7 witness: two states that differ everywhere but in the publication date
give the same pure result on the same tables. -/
theorem analyze_positions_method_pure_witness :
    analyze_positions_method stateA [] [] =
      (.ok (analyze_positions [] [] 20240110), stateA) ∧
    analyze_positions_method stateB [] [] =
      (.ok (analyze_positions [] [] 20240110), stateB) :=
  analyze_positions_method_pure stateA stateB [] [] 20240110 rfl rfl

/-- C3: when the GET (or `raise_for_status`) raises a network/HTTP error, the
`except` clause catches it and prints a message, control falls through to the
`return current, historical` statement with the table variables still unset
(so the caught request error itself is not propagated; what escapes at the
return is the `UnboundLocalError` for the never-assigned `current`), no file
is written and the publication date is not set. -/
theorem download_file_request_error_caught (fetch : HttpFetch)
    (h : requestRaises fetch = true) :
    (download_file fetch).logged = true ∧
    (download_file fetch).reachedReturn = true ∧
    (download_file fetch).fileWritten = false ∧
    (download_file fetch).pubDateSet = none ∧
    (download_file fetch).result = .error (.unboundLocalError "current") ∧
    (download_file fetch).result ≠ .error .requestException := by
  cases fetch with
  | connectionError => exact ⟨rfl, rfl, rfl, rfl, rfl, by simp [download_file]⟩
  | status code content =>
    have hcode : (400 ≤ code && code < 600) = true := h
    simp [download_file, hcode]

/-- Workbook content used by the C3 witness (all parses fine; they are never
reached on a 500 response). -/
def c3content : ExcelContent :=
  { currentSheet := .ok [], historicalSheet := .ok [], dateCell := .ok "10/01/2024" }

/-- C3 witness: a 500 status response. -/
theorem download_file_request_error_caught_witness :
    (download_file (.status 500 c3content)).logged = true ∧
    (download_file (.status 500 c3content)).reachedReturn = true ∧
    (download_file (.status 500 c3content)).fileWritten = false ∧
    (download_file (.status 500 c3content)).pubDateSet = none ∧
    (download_file (.status 500 c3content)).result = .error (.unboundLocalError "current") ∧
    (download_file (.status 500 c3content)).result ≠ .error .requestException :=
  download_file_request_error_caught (.status 500 c3content) rfl

/-- `true` when the value is an `Except.error`. -/
def isErrB {α : Type} (x : Except PyError α) : Bool :=
  match x with
  | .error _ => true
  | .ok _ => false

/-- Whether some sheet parse or the date parse of this workbook content
raises: the two position-sheet parses, the date-sheet read, or the
`strptime` of the date string. -/
def anyParseFails (content : ExcelContent) : Bool :=
  isErrB content.currentSheet || isErrB content.historicalSheet ||
    (match content.dateCell with
     | .error _ => true
     | .ok s => isErrB (strptime_dmY s))

/-- C10: on a response that passes `raise_for_status`, if any sheet parse or
the date parse raises, the exception propagates out of `download_file` before
the file open/write is reached: no file is created, the publication date is
not set, nothing is printed by the handler, and control never reaches the
return statement. -/
theorem download_file_parse_error_no_file (code : Nat) (content : ExcelContent)
    (hok : requestRaises (.status code content) = false)
    (hfail : anyParseFails content = true) :
    (download_file (.status code content)).fileWritten = false ∧
    (download_file (.status code content)).reachedReturn = false ∧
    (download_file (.status code content)).logged = false ∧
    (download_file (.status code content)).pubDateSet = none ∧
    ∃ e, (download_file (.status code content)).result = .error e := by
  have hcode : (400 ≤ code && code < 600) = false := hok
  cases hc : content.currentSheet with
  | error e => refine ⟨?_, ?_, ?_, ?_, e, ?_⟩ <;> simp [download_file, hcode, hc]
  | ok current =>
    cases hh : content.historicalSheet with
    | error e => refine ⟨?_, ?_, ?_, ?_, e, ?_⟩ <;> simp [download_file, hcode, hc, hh]
    | ok historical =>
      cases hd : content.dateCell with
      | error e => refine ⟨?_, ?_, ?_, ?_, e, ?_⟩ <;> simp [download_file, hcode, hc, hh, hd]
      | ok dateStr =>
        cases hs : strptime_dmY dateStr with
        | error e =>
          refine ⟨?_, ?_, ?_, ?_, e, ?_⟩ <;> simp [download_file, hcode, hc, hh, hd, hs]
        | ok d =>
          exfalso
          rw [anyParseFails, hc, hh, hd] at hfail
          simp [isErrB, hs] at hfail

/-- Workbook content for the C10 witness: the first sheet parse raises
(as pandas does when the sheet name is absent), the others are fine. -/
def c10content : ExcelContent :=
  { currentSheet := .error (.valueError "Worksheet named Correnti not found")
    historicalSheet := .ok []
    dateCell := .ok "10/01/2024" }

/-- C10 witness: a 200 response whose first sheet parse raises. -/
theorem download_file_parse_error_no_file_witness :
    (download_file (.status 200 c10content)).fileWritten = false ∧
    (download_file (.status 200 c10content)).reachedReturn = false ∧
    (download_file (.status 200 c10content)).logged = false ∧
    (download_file (.status 200 c10content)).pubDateSet = none ∧
    ∃ e, (download_file (.status 200 c10content)).result = .error e :=
  download_file_parse_error_no_file 200 c10content rfl rfl

/-- C4: for every response of the news endpoint with a status other than 200,
`retrieve_news` returns the empty list and never raises. -/
theorem retrieve_news_non200_empty (resp : NewsResp) (h : resp.status ≠ 200) :
    retrieve_news resp = .ok [] := by
  simp [retrieve_news, h]

/-- News response used by the C4 witness: a 404 whose body would raise a
`KeyError` if it were ever mapped. -/
def c4resp : NewsResp :=
  { status := 404, feed := [{ title := none, url := none }] }

/-- C4 witness: a 404 response yields the empty list. -/
theorem retrieve_news_non200_empty_witness : retrieve_news c4resp = .ok [] :=
  retrieve_news_non200_empty c4resp (by decide)

/-- C9: on a 200 response, if every feed entry has both a title and a url
then `retrieve_news` returns exactly one `(title, url)` pair per entry in
feed order (so the result length equals the feed length); if some entry
misses either field, the field lookup raises a `KeyError` instead of the
entry being silently skipped. -/
theorem retrieve_news_200_maps_feed (resp : NewsResp) (h200 : resp.status = 200) :
    ((∀ it ∈ resp.feed, it.title.isSome = true ∧ it.url.isSome = true) →
      retrieve_news resp =
        .ok (resp.feed.map (fun it => (it.title.getD "", it.url.getD ""))) ∧
      ∀ l, retrieve_news resp = .ok l → l.length = resp.feed.length) ∧
    ((∃ it ∈ resp.feed, it.title = none ∨ it.url = none) →
      ∃ k, retrieve_news resp = .error (.keyError k)) := by
  constructor
  · intro hall
    have hmap := pairsOfFeed_all_some resp.feed hall
    have heq : retrieve_news resp =
        .ok (resp.feed.map (fun it => (it.title.getD "", it.url.getD ""))) := by
      rw [retrieve_news, if_pos h200, hmap]
    refine ⟨heq, fun l hl => ?_⟩
    rw [heq] at hl
    cases hl
    exact List.length_map _ _
  · intro hmiss
    obtain ⟨k, hk⟩ := pairsOfFeed_missing resp.feed hmiss
    exact ⟨k, by rw [retrieve_news, if_pos h200, hk]⟩

/-- Well-formed 200 response for the C9 witness. -/
def c9good : NewsResp :=
  { status := 200
    feed := [{ title := some "a", url := some "b" },
             { title := some "c", url := some "d" }] }

/-- Malformed 200 response for the C9 witness: the entry lacks a url. -/
def c9bad : NewsResp :=
  { status := 200, feed := [{ title := some "a", url := none }] }

/-- C9 witness: both branches at concrete 200 responses. -/
theorem retrieve_news_200_maps_feed_witness :
    (retrieve_news c9good = .ok [("a", "b"), ("c", "d")] ∧
      ∀ l, retrieve_news c9good = .ok l → l.length = c9good.feed.length) ∧
    ∃ k, retrieve_news c9bad = .error (.keyError k) := by
  refine ⟨?_, ?_⟩
  · exact (retrieve_news_200_maps_feed c9good rfl).1 (by decide)
  · exact (retrieve_news_200_maps_feed c9bad rfl).2
      ⟨{ title := some "a", url := none }, by decide, Or.inr rfl⟩

/-- C5: `retrieve_news_with_rag` reads `self.llm_inference_endpoint`, an
attribute that no statement of the program ever assigns (the constructor
assigns nine other attributes, `download_file` assigns
`pubblication_date`, and nothing else is ever assigned), so whenever the
news-retrieval step succeeds the call fails with an `AttributeError` at that
read, before the POST to the inference endpoint is issued. -/
theorem rag_attribute_error_before_post (attrs : List String)
    (hsub : ∀ a ∈ attrs, a ∈ assignedAttrNames)
    (encode : String → List Int) (sim : List Int → List Int → Int)
    (st : QdrantState) (n : Nat) (resp : NewsResp)
    (articles : List (String × String))
    (hok : retrieve_news resp = .ok articles) :
    retrieve_news_with_rag attrs encode sim st n resp =
      (.error (.attributeError "llm_inference_endpoint"), false) := by
  have hattr : "llm_inference_endpoint" ∉ attrs := by
    intro hmem
    have := hsub _ hmem
    simp [assignedAttrNames] at this
  have hcol := embed_collection_exists encode st n articles
  have hsearch : qdrant_search sim (embed_and_store_news encode st n articles).1
      (encode "Short selling") 5 =
      .ok ((sortByScoreDesc (fun p => sim (encode "Short selling") p.vector)
        (embed_and_store_news encode st n articles).1.points).take 5) := by
    unfold qdrant_search
    rw [if_pos hcol]
  simp [retrieve_news_with_rag, hok, hsearch, hattr]

/-- Empty 200 response for the C5 witness. -/
def c5resp : NewsResp := { status := 200, feed := [] }

/-- C5 witness: with exactly the attributes the program ever assigns, the
call fails with the `AttributeError` and no POST happens. -/
theorem rag_attribute_error_before_post_witness :
    retrieve_news_with_rag assignedAttrNames (fun _ => [1]) (fun _ _ => 0)
      emptyQdrant 0 c5resp =
      (.error (.attributeError "llm_inference_endpoint"), false) :=
  rag_attribute_error_before_post assignedAttrNames (by decide) (fun _ => [1])
    (fun _ _ => 0) emptyQdrant 0 c5resp [] rfl

/-- C6 counterexample: on a 404 the news list is empty, yet
`embed_and_store_news([])` does create the vector collection — the
existence check and creation run before the article loop, so with no
collection present the call leaves the collection existing (the claim that
it remains non-existent is false), even though no point is upserted. -/
theorem embed_empty_creates_collection_cex :
    retrieve_news { status := 404, feed := [] } = .ok [] ∧
    COLLECTION_NAME ∉ emptyQdrant.collections ∧
    (embed_and_store_news (fun _ => [0]) emptyQdrant 0 []).1.collections
      = [COLLECTION_NAME] ∧
    (embed_and_store_news (fun _ => [0]) emptyQdrant 0 []).1.points = [] := by
  refine ⟨rfl, by decide, ?_, ?_⟩ <;> rfl

/-- C6 (amended): when the news endpoint returns HTTP 404, `retrieve_news`
returns the empty list and `embed_and_store_news([])` upserts no points and
hands out no ids, but it does create the vector collection when it does not
already exist: after the call the collection exists. -/
theorem news404_embed_noop_but_creates (resp : NewsResp) (h404 : resp.status = 404)
    (encode : String → List Int) (st : QdrantState) (n : Nat) :
    retrieve_news resp = .ok [] ∧
    (embed_and_store_news encode st n []).1.points = st.points ∧
    (embed_and_store_news encode st n []).2 = n ∧
    COLLECTION_NAME ∈ (embed_and_store_news encode st n []).1.collections := by
  refine ⟨retrieve_news_non200_empty resp (by rw [h404]; decide), ?_, ?_,
    embed_collection_exists encode st n []⟩ <;>
  · unfold embed_and_store_news upsertAll
    split <;> rfl

/-- 404 response for the C6 witness. -/
def c6resp : NewsResp := { status := 404, feed := [] }

/-- C6 witness: the amended property at a concrete 404 response and the
empty store. -/
theorem news404_embed_noop_but_creates_witness :
    retrieve_news c6resp = .ok [] ∧
    (embed_and_store_news (fun _ => [2]) emptyQdrant 0 []).1.points
      = emptyQdrant.points ∧
    (embed_and_store_news (fun _ => [2]) emptyQdrant 0 []).2 = 0 ∧
    COLLECTION_NAME ∈ (embed_and_store_news (fun _ => [2]) emptyQdrant 0 []).1.collections :=
  news404_embed_noop_but_creates c6resp rfl (fun _ => [2]) emptyQdrant 0

/-- C8: after embedding and upserting any list of articles into the fresh
in-memory store, a search with any query (any encoder, any similarity
scoring) succeeds and returns at most 5 results, each of whose payloads
carries the title and url of some previously upserted article. -/
theorem search_after_embed_top5_from_articles (encode : String → List Int)
    (sim : List Int → List Int → Int) (articles : List (String × String))
    (query : String) (n : Nat) :
    ∃ l, qdrant_search sim (embed_and_store_news encode emptyQdrant n articles).1
        (encode query) 5 = .ok l ∧
      l.length ≤ 5 ∧
      ∀ p ∈ l, ∃ a ∈ articles, p.payload_title = a.1 ∧ p.payload_url = a.2 := by
  have hcol := embed_collection_exists encode emptyQdrant n articles
  refine ⟨_, by unfold qdrant_search; rw [if_pos hcol], List.length_take_le _ _, ?_⟩
  intro p hp
  have hsorted : p ∈ sortByScoreDesc (fun q => sim (encode query) q.vector)
      (embed_and_store_news encode emptyQdrant n articles).1.points :=
    (List.take_sublist _ _).subset hp
  exact embed_points_from_articles encode n articles p
    ((mem_sortByScoreDesc _ _ _).1 hsorted)
